import Mathlib

/-!
Shallow embedding of the FreeDesktop-trash implementation in
src/trashcan.c of libtrashcan (the Linux and BSD branch, the only branch
whose behaviour is specified beyond the interface level).  Paths and file
contents are modelled as byte lists (`List Nat`, each element a byte value
below 256), because the C code operates on `char *` buffers byte by byte.
The filesystem and the C runtime are modelled by explicit parameters
(stat results, open results, random bytes), so every definition is an
executable function of its inputs.
-/

/-- Byte list of a string literal.  Every literal used in this file is
ASCII, so each character is taken as its code point. -/
def bytes (s : String) : List Nat := s.data.map Char.toNat

/-- Embedding of `is_unreserved` (trashcan.c lines 570-589): the RFC 2396
unreserved characters.  The C parameter has type `char`; on the targeted
platforms `char` is signed, so bytes of value 128..255 compare negative
and fall outside every range tested by the C code.  The `Nat` ranges below
agree with that, because every tested range lies below 128. -/
def is_unreserved (c : Nat) : Bool :=
  (97 ≤ c && c ≤ 122) ||  -- a-z
  (65 ≤ c && c ≤ 90)  ||  -- A-Z
  (48 ≤ c && c ≤ 57)  ||  -- 0-9
  c == 45 || c == 95 || c == 46 || c == 33 || c == 126 || c == 42 ||
  c == 39 || c == 40 || c == 41   -- - _ . ! ~ * apostrophe ( )

/-- One uppercase hexadecimal digit, as a byte. -/
def hexDigitUpper (d : Nat) : Nat := if d < 10 then 48 + d else 55 + d

/-- The two uppercase hexadecimal digits printed by `snprintf("%02hhX", c)`:
the `hh` length modifier reduces the argument modulo 256 (the C code also
casts to `unsigned char` first). -/
def hexUpper (c : Nat) : List Nat :=
  [hexDigitUpper (c % 256 / 16), hexDigitUpper (c % 16)]

/-- Embedding of `escape_path` (trashcan.c lines 600-627): byte-wise URI
escaping of the canonical path.  Unreserved bytes and the slash (47) pass
through; every other byte becomes a percent sign (37) followed by its two
uppercase hexadecimal digits. -/
def escape_path : List Nat → List Nat
  | [] => []
  | c :: rest =>
      (if is_unreserved c || c == 47 then [c] else 37 :: hexUpper c) ++
        escape_path rest

/-- Value of one hexadecimal digit byte, accepting both letter cases. -/
def hexVal (c : Nat) : Option Nat :=
  if 48 ≤ c && c ≤ 57 then some (c - 48)
  else if 65 ≤ c && c ≤ 70 then some (c - 55)
  else if 97 ≤ c && c ≤ 102 then some (c - 87)
  else none

mutual

/-- Modelled from the spec: percent-unescaping, the decoder that property
P4 applies to the `Path=` line of a sidecar.  A percent sign must be
followed by two hexadecimal digits; every other byte stands for itself. -/
def unescape : List Nat → Option (List Nat)
  | [] => some []
  | c :: rest =>
      if c = 37 then unescapePercent rest
      else (unescape rest).map fun r => c :: r
termination_by l => l.length

/-- Decoding of the two hexadecimal digits after a percent sign. -/
def unescapePercent : List Nat → Option (List Nat)
  | h :: l :: rest2 =>
      match hexVal h, hexVal l with
      | some hv, some lv => (unescape rest2).map fun r => (hv * 16 + lv) :: r
      | _, _ => none
  | _ => none
termination_by l => l.length

end

/-- Splitting a byte list at every occurrence of a separator byte; the
result always has one more part than there are separators. -/
def splitOnByte (sep : Nat) : List Nat → List (List Nat)
  | [] => [[]]
  | c :: rest =>
      match splitOnByte sep rest with
      | [] => [[c]]
      | r :: rs => if c = sep then [] :: r :: rs else (c :: r) :: rs

/-- The sidecar block composed by `create_info_file` (trashcan.c line 649):
`asprintf(&trashinfo_file, "[Trash Info]\nPath=%s\nDeletionDate=%s\n",
escaped_original_filepath, timestamp)`. -/
def trashinfo_file (escaped_path timestamp : List Nat) : List Nat :=
  bytes ("[Trash Info]\nPath=") ++ escaped_path ++
    bytes ("\nDeletionDate=") ++ timestamp ++ bytes ("\n")

/-- Outcome of `fopen(trashinfo_filepath, "wx")` in `create_info_file`. -/
inductive OpenRes where
  | ok : OpenRes
  | eexist : OpenRes
  | otherErr : OpenRes
deriving DecidableEq

/-- Return value of `create_info_file` (trashcan.c lines 639-673): `1`
when the exclusive open fails with `EEXIST` (name collision), `-1` on
every other failure, among them a short `fwrite`, and `0` on success.
Failures of `escape_path` or `asprintf` before the open also return `-1`
with no file created; they are covered by `OpenRes.otherErr`, which is
observationally the same. -/
def create_info_file (openRes : OpenRes) (write_full : Bool) : Int :=
  match openRes with
  | OpenRes.eexist => 1
  | OpenRes.otherErr => -1
  | OpenRes.ok => if write_full then 0 else -1

/-- Whether `create_info_file` leaves a sidecar file on disk: exactly when
the exclusive open succeeded.  The error path after a short `fwrite` only
closes the stream, it never removes the file. -/
def info_file_created (openRes : OpenRes) : Bool :=
  match openRes with
  | OpenRes.ok => true
  | _ => false

/-- Embedding of `get_home_trash_dir` (trashcan.c lines 331-373).  The
environment is passed explicitly: `none` models an unset variable, `some`
the value returned by `getenv`.  The C code branches on
`xdg_data_home == NULL` only, so a set-but-empty `XDG_DATA_HOME` is used
as-is.  Result: `(data_home, trash_dir, trash_info_dir, trash_files_dir)`
or `none` for the failure return. -/
def get_home_trash_dir (xdg_data_home home : Option String) :
    Option (String × String × String × String) :=
  match xdg_data_home with
  | none =>
      match home with
      | none => none
      | some h =>
          some (h ++ "/.local/share", h ++ "/.local/share/Trash",
            h ++ "/.local/share/Trash" ++ "/info",
            h ++ "/.local/share/Trash" ++ "/files")
  | some x =>
      some (x, x ++ "/Trash", x ++ "/Trash" ++ "/info",
        x ++ "/Trash" ++ "/files")

/-- Modelled from the spec: the home-trash base directory per the claim,
which follows the XDG base-directory specification: a set-but-empty
`XDG_DATA_HOME` counts as unusable and falls back to `HOME`. -/
def home_trash_base_spec (xdg_data_home home : Option String) : Option String :=
  match xdg_data_home with
  | some x =>
      if x = "" then
        match home with
        | some h => some (h ++ "/.local/share/Trash")
        | none => none
      else some (x ++ "/Trash")
  | none =>
      match home with
      | some h => some (h ++ "/.local/share/Trash")
      | none => none

/-- The fields of an `lstat` result that the top-dir checks inspect. -/
structure ModeInfo where
  sticky : Bool
  is_lnk : Bool
  is_dir : Bool
deriving DecidableEq

/-- The filesystem facts consulted while deciding between case-1 and
case-2 top-dir trash in `soft_delete` (trashcan.c lines 1012-1016). -/
structure TopDirFs where
  /-- Result of `lstat` on the case-1 base `$mount/.Trash/$uid` — the path
  built by `get_top_trash_dir(1, ...)`; `none` when `lstat` fails. -/
  lstat_trash_uid : Option ModeInfo
  /-- Result of `lstat` on `$mount/.Trash` itself.  The C code never
  performs this call; the field exists so that the claimed checks can be
  stated against the same filesystem. -/
  lstat_trash : Option ModeInfo
  /-- Whether `create_trash_dir` succeeds below the case-1 base. -/
  create_ok : Bool
deriving DecidableEq

/-- Embedding of the case-1 acceptance decision in `soft_delete`
(trashcan.c lines 1012-1016): `case_1_failed` is set when `lstat` of
`trash_dir` (which is `$mount/.Trash/$uid`) fails, when its sticky bit is
clear, when it is a symbolic link, or when creating `info/` and `files/`
below it fails; case 1 is accepted otherwise. -/
def case1_accepted (fs : TopDirFs) : Bool :=
  match fs.lstat_trash_uid with
  | none => false
  | some st =>
      if st.sticky = false then false
      else if st.is_lnk then false
      else if fs.create_ok = false then false
      else true

/-- Modelled from the spec: the claimed case-1 gate, evaluated on
`$mount/.Trash` — it must exist, be a directory, not be a symbolic link
and have the sticky bit set. -/
def case1_accepted_spec (fs : TopDirFs) : Bool :=
  match fs.lstat_trash with
  | none => false
  | some st => st.is_dir && !st.is_lnk && st.sticky

/-- `strlen(".trashinfo")`. -/
def trashinfo_ext_len : Nat := 10

/-- Modulus of `size_t` and of `uint64_t` on the targeted platforms: both
are 64 bits wide. -/
def size_t_modulus : Nat := 2 ^ 64

/-- Conversion of a C `long` value to `size_t` (conversion to an unsigned
type is reduction modulo one more than its maximum value). -/
def size_t_of_long (n : Int) : Nat := (n % (size_t_modulus : Int)).toNat

/-- One lowercase hexadecimal digit, as a byte. -/
def hexDigitLower (d : Nat) : Nat := if d < 10 then 48 + d else 87 + d

/-- Digit recursion behind `counter_hex`; the first argument is fuel,
always sufficient when it starts at the number itself. -/
def hexLowerCore : Nat → Nat → List Nat
  | 0, _ => []
  | fuel + 1, n =>
      if n = 0 then []
      else hexLowerCore fuel (n / 16) ++ [hexDigitLower (n % 16)]

/-- The bytes printed by `asprintf(&counter_str, "%x", counter)`:
lowercase hexadecimal without leading zeros, a single `0` for zero. -/
def counter_hex (n : Nat) : List Nat := if n = 0 then [48] else hexLowerCore n n

/-- Concatenated uppercase hexadecimal expansion of a byte list, as
produced by the `snprintf("%02hhX", buf[i])` loop. -/
def hex_concat : List Nat → List Nat
  | [] => []
  | b :: rest => hexUpper b ++ hex_concat rest

/-- Result of `pathconf(trash_files_dir, _PC_NAME_MAX)` together with its
`errno` convention: a returned value other than `-1`, or `-1` with
`errno == 0` (the filesystem sets no limit), or `-1` with an error. -/
inductive NameMaxRes where
  | limit : Int → NameMaxRes
  | noLimit : NameMaxRes
  | errFail : NameMaxRes
deriving DecidableEq

/-- Embedding of `generate_random_filename` (trashcan.c lines 682-712).
The random source is passed explicitly as `random_bytes`; a list shorter
than the needed count models a `getrandom` failure.  An odd requested
length is rejected before anything else, because every random byte
becomes exactly two hexadecimal characters. -/
def generate_random_filename (random_bytes : List Nat)
    (filename_length : Nat) : Option (List Nat) :=
  if filename_length % 2 ≠ 0 then none
  else if random_bytes.length < filename_length / 2 then none
  else some (hex_concat (random_bytes.take (filename_length / 2)))

/-- The inputs of one `generate_filenames` call (trashcan.c lines
749-812). -/
structure GenArgs where
  original_name : List Nat
  timestamp_name : List Nat
  counter : Nat
  name_max : NameMaxRes
  enforce_random : Bool
  random_bytes : List Nat

/-- The random-name branch of `generate_filenames`: the requested length
is `(size_t)name_max - strlen(".trashinfo")` computed in `size_t`
arithmetic, so it wraps around for `name_max` below 10, in particular for
`name_max == -1`. -/
def random_name_pair (trash_info_dir trash_files_dir random_bytes : List Nat)
    (name_max : Int) : Option (List Nat × List Nat) :=
  let filename_length := (size_t_of_long name_max +
    (size_t_modulus - trashinfo_ext_len)) % size_t_modulus
  (generate_random_filename random_bytes filename_length).map fun f =>
    (trash_info_dir ++ 47 :: (f ++ bytes (".trashinfo")),
      trash_files_dir ++ 47 :: f)

/-- Embedding of `generate_filenames` (trashcan.c lines 749-812).
`chars_left` is initialised to 0 and assigned only when `pathconf`
reports a finite limit; with no limit the standard-branch condition
`chars_left > 0 && !enforce_random` is therefore false and the random
branch runs with `name_max == -1`.  Returns the pair
`(trash_info_file, trashed_file)`, or `none` for the failure return. -/
def generate_filenames (trash_info_dir trash_files_dir : List Nat)
    (g : GenArgs) : Option (List Nat × List Nat) :=
  let counter_str := counter_hex g.counter
  match g.name_max with
  | NameMaxRes.errFail => none
  | NameMaxRes.limit n =>
      let chars_left : Int := n - Int.ofNat (g.timestamp_name.length +
        g.original_name.length + counter_str.length + trashinfo_ext_len)
      if chars_left > 0 && !g.enforce_random then
        some (trash_info_dir ++ 47 :: (g.original_name ++ g.timestamp_name ++
            counter_str ++ bytes (".trashinfo")),
          trash_files_dir ++ 47 :: (g.original_name ++ g.timestamp_name ++
            counter_str))
      else random_name_pair trash_info_dir trash_files_dir g.random_bytes n
  | NameMaxRes.noLimit =>
      random_name_pair trash_info_dir trash_files_dir g.random_bytes (-1)

/-- Status code 0 of the Unix branch (trashcan.c lines 298-313). -/
def LIBTRASHCAN_SUCCESS : Int := 0

/-- Status code -9: `generate_filenames` failed. -/
def LIBTRASHCAN_FILENAMES : Int := -9

/-- Status code -10: sidecar creation failed other than by collision. -/
def LIBTRASHCAN_TRASHINFO : Int := -10

/-- Status code -11: the rename into `files_dir` failed. -/
def LIBTRASHCAN_RENAME : Int := -11

/-- Status code -12: no unique name could be generated. -/
def LIBTRASHCAN_COLLISION : Int := -12

/-- Status code -13: updating `directorysizes` failed. -/
def LIBTRASHCAN_DIRCACHE : Int := -13

/-- Modulus of the C `unsigned int` collision counter: 32 bits on every
targeted platform. -/
def uint_modulus : Nat := 2 ^ 32

/-- The behaviour of the environment for one attempt of the retry loop of
`soft_delete`: whether `generate_filenames` succeeds, how the exclusive
open of the sidecar name derived from this `(counter, enforce_random)`
pair ends, and whether the `fwrite` of the block is complete. -/
structure AttemptEnv where
  gen_ok : Bool
  openRes : OpenRes
  write_full : Bool

/-- Observable outcome of one `soft_delete` run past the naming stage. -/
structure Outcome where
  /-- the returned status code -/
  status : Int
  /-- a sidecar created by this call remains on disk although the entry
  was not moved into `files_dir` -/
  orphan_sidecar : Bool
  /-- the rename into `files_dir` succeeded and was not undone, so the
  entry and its sidecar are both in the trash -/
  entry_in_trash : Bool
deriving DecidableEq

/-- Embedding of the naming, commit and caching loop of `soft_delete`
(trashcan.c lines 1047-1091).  On a successful sidecar creation the
source is renamed: a rename failure removes the sidecar and returns the
rename error, otherwise the size cache refresh decides between success
and the cache error, with the move kept either way.  On a collision
(`create_info_file` returned 1) the counter is incremented modulo the
`unsigned int` range; if the random form was already in force the loop
gives up, and when the counter wraps to 0 the random form is switched
on.  Every other sidecar failure stops the loop, leaving a file on disk
exactly when the exclusive open had succeeded (short write). -/
def soft_delete_loop (env : Nat → Bool → AttemptEnv) (rename_ok cache_ok : Bool)
    (counter : Nat) (enforce_random : Bool) : Outcome :=
  let a := env counter enforce_random
  if a.gen_ok = false then ⟨LIBTRASHCAN_FILENAMES, false, false⟩
  else if create_info_file a.openRes a.write_full = 0 then
    if rename_ok then
      if cache_ok then ⟨LIBTRASHCAN_SUCCESS, false, true⟩
      else ⟨LIBTRASHCAN_DIRCACHE, false, true⟩
    else ⟨LIBTRASHCAN_RENAME, false, false⟩
  else if create_info_file a.openRes a.write_full = 1 then
    if enforce_random then ⟨LIBTRASHCAN_COLLISION, false, false⟩
    else
      soft_delete_loop env rename_ok cache_ok ((counter + 1) % uint_modulus)
        ((counter + 1) % uint_modulus == 0)
  else ⟨LIBTRASHCAN_TRASHINFO, info_file_created a.openRes, false⟩
termination_by if enforce_random then 0 else uint_modulus - counter % uint_modulus
decreasing_by
  rename_i henf
  have hm : 0 < uint_modulus := by norm_num [uint_modulus]
  have hlt : counter % uint_modulus < uint_modulus := Nat.mod_lt _ hm
  have h1m : 1 % uint_modulus = 1 := Nat.mod_eq_of_lt (by norm_num [uint_modulus])
  have hstep : (counter + 1) % uint_modulus =
      (counter % uint_modulus + 1) % uint_modulus := by
    rw [Nat.add_mod, h1m]
  rw [if_neg henf]
  by_cases hz : (counter + 1) % uint_modulus = 0
  · have hcond : ((counter + 1) % uint_modulus == 0) = true := by simpa using hz
    rw [if_pos hcond]
    omega
  · have hcond : ¬(((counter + 1) % uint_modulus == 0) = true) := by simpa using hz
    rw [if_neg hcond]
    have hlt2 : (counter + 1) % uint_modulus < uint_modulus := Nat.mod_lt _ hm
    rw [Nat.mod_eq_of_lt hlt2]
    have hsmall : counter % uint_modulus + 1 < uint_modulus := by
      rcases Nat.lt_or_ge (counter % uint_modulus + 1) uint_modulus with hlt3 | hge
      · exact hlt3
      · exfalso
        have hEq : counter % uint_modulus + 1 = uint_modulus := by omega
        rw [hstep, hEq, Nat.mod_self] at hz
        exact hz rfl
    have heq : (counter + 1) % uint_modulus = counter % uint_modulus + 1 := by
      rw [hstep, Nat.mod_eq_of_lt hsmall]
    omega

/-- A filesystem subtree below one entry of the trash `files` directory,
as observed through `readdir` and `lstat`.  Directory listings exclude
`.` and `..`, which the C walk skips before doing anything else. -/
inductive FsNode where
  | file : Nat → FsNode
  | symlink : FsNode
  | special : FsNode
  | dir : List FsNode → FsNode

mutual

/-- Embedding of `get_dir_size` (trashcan.c lines 821-862): the `readdir`
loop over one directory listing, threading the `uint64_t` accumulator
`*dir_size` (arithmetic modulo 2 to the 64). -/
def get_dir_size : List FsNode → Nat → Nat
  | [], acc => acc
  | e :: rest, acc => get_dir_size rest (dir_entry_size e acc)

/-- One iteration of the `get_dir_size` loop: `S_ISDIR` recurses,
`S_ISREG` adds `st_size` into the accumulator, every other file kind
(symbolic links included, since `lstat` is used) leaves it unchanged. -/
def dir_entry_size : FsNode → Nat → Nat
  | FsNode.dir es, acc => get_dir_size es acc
  | FsNode.file sz, acc => (acc + sz) % size_t_modulus
  | FsNode.symlink, acc => acc
  | FsNode.special, acc => acc

end

mutual

/-- Modelled from the spec: the `st_size` values of every regular file
reachable in a subtree; symbolic links and other kinds contribute
nothing. -/
def reg_file_sizes : FsNode → List Nat
  | FsNode.file sz => [sz]
  | FsNode.symlink => []
  | FsNode.special => []
  | FsNode.dir es => reg_file_sizes_list es

/-- Modelled from the spec: `reg_file_sizes` over a directory listing. -/
def reg_file_sizes_list : List FsNode → List Nat
  | [] => []
  | e :: rest => reg_file_sizes e ++ reg_file_sizes_list rest

end

/-- Embedding of the row-emitting loop of
`create_or_update_dir_size_cache` (trashcan.c lines 903-932): for every
immediate child of `files_dir` whose `d_type` is `DT_DIR`, compute the
subtree size starting from accumulator 0, `lstat` the paired sidecar
`trash_info_dir/<name>.trashinfo` and skip the child silently when that
fails, otherwise emit the row `(size, sidecar mtime, name)`. -/
def create_or_update_dir_size_cache (children : List (String × FsNode))
    (info_mtime : String → Option Int) : List (Nat × Int × String) :=
  match children with
  | [] => []
  | (name, node) :: rest =>
      match node with
      | FsNode.dir es =>
          (match info_mtime name with
           | some m =>
               (get_dir_size es 0, m, name) ::
                 create_or_update_dir_size_cache rest info_mtime
           | none => create_or_update_dir_size_cache rest info_mtime)
      | _ => create_or_update_dir_size_cache rest info_mtime

/-- Modelled from the spec: the row an immediate child of `files_dir`
should produce — a directory child with a sidecar yields the sum of the
regular-file sizes of its subtree (as a 64-bit value), everything else
yields no row. -/
def row_per_spec (info_mtime : String → Option Int)
    (child : String × FsNode) : Option (Nat × Int × String) :=
  match child with
  | (name, FsNode.dir es) =>
      (info_mtime name).map fun m =>
        ((reg_file_sizes_list es).sum % size_t_modulus, m, name)
  | (_, _) => none

/-! ## Theorems -/

theorem hexVal_hexDigitUpper : ∀ d, d < 16 → hexVal (hexDigitUpper d) = some d := by
  decide

theorem unreserved_ne_37 {c : Nat} (h : (is_unreserved c || c == 47) = true) :
    c ≠ 37 := by
  intro hc
  subst hc
  simp [is_unreserved] at h

/-- C5: URI escaping is byte-wise; unreserved bytes and the slash pass
through unchanged, every other byte becomes a percent sign followed by two
uppercase hexadecimal digits, and percent-unescaping the escaped form of
any byte sequence yields exactly that sequence. -/
theorem C5_escape_roundtrip :
    ∀ p : List Nat, (∀ b ∈ p, b < 256) → unescape (escape_path p) = some p := by
  intro p hp
  induction p with
  | nil => rw [escape_path, unescape]
  | cons c rest ih =>
      have hc : c < 256 := hp c (List.mem_cons_self c rest)
      have hrest := ih fun b hb => hp b (List.mem_cons_of_mem c hb)
      by_cases hu : (is_unreserved c || c == 47) = true
      · have hc37 : c ≠ 37 := unreserved_ne_37 hu
        rw [escape_path, if_pos hu, List.singleton_append, unescape,
          if_neg hc37, hrest]
        rfl
      · have h16a : c % 256 / 16 < 16 := by omega
        have h16b : c % 16 < 16 := by omega
        have key : c % 256 / 16 * 16 + c % 16 = c := by omega
        rw [escape_path, if_neg hu, hexUpper, List.cons_append,
          List.cons_append, List.cons_append, List.nil_append, unescape,
          if_pos rfl, unescapePercent, hexVal_hexDigitUpper _ h16a,
          hexVal_hexDigitUpper _ h16b]
        simp only [hrest, key]
        rfl

/-- C1: evaluation of the case-1 gate at two concrete filesystem states.
State `fsA`: `$mount/.Trash` is a sticky, non-symlink directory while
`$mount/.Trash/$uid` does not exist — the claim accepts case 1, the code
falls through to case 2 because its `lstat` of `$mount/.Trash/$uid`
fails.  State `fsB`: `$mount/.Trash` exists without the sticky bit while
`$mount/.Trash/$uid` is sticky — the claim requires the fall-through to
case 2, the code accepts case 1 because it never looks at
`$mount/.Trash`, and it never checks that the inspected path is a
directory. -/
theorem C1_case1_checks_eval :
    case1_accepted ⟨none, some ⟨true, false, true⟩, true⟩ = false
    ∧ case1_accepted_spec ⟨none, some ⟨true, false, true⟩, true⟩ = true
    ∧ case1_accepted ⟨some ⟨true, false, true⟩, some ⟨false, false, true⟩, true⟩ = true
    ∧ case1_accepted_spec ⟨some ⟨true, false, true⟩, some ⟨false, false, true⟩, true⟩ = false := by
  decide

/-- C4: evaluation of the home-trash resolution.  With `XDG_DATA_HOME` set
to the empty string and `HOME=/h`, the code uses the empty value as-is and
yields the base `/Trash`, while the claim (non-empty check) requires
`/h/.local/share/Trash`; with both variables unset the code fails, as
claimed. -/
theorem C4_empty_xdg_eval :
    get_home_trash_dir (some "") (some "/h") =
      some ("", "/Trash", "/Trash/info", "/Trash/files")
    ∧ home_trash_base_spec (some "") (some "/h") = some ("/h/.local/share/Trash")
    ∧ ("/Trash" : String) ≠ "/h/.local/share/Trash"
    ∧ get_home_trash_dir none none = none
    ∧ home_trash_base_spec none none = none := by
  refine ⟨rfl, rfl, by decide, rfl, rfl⟩

theorem splitOnByte_ne_nil (sep : Nat) (l : List Nat) : splitOnByte sep l ≠ [] := by
  cases l with
  | nil => simp [splitOnByte]
  | cons c rest =>
      rw [splitOnByte]
      rcases h : splitOnByte sep rest with _ | ⟨r, rs⟩
      · simp
      · show ¬(if c = sep then [] :: r :: rs else (c :: r) :: rs) = []
        split <;> simp

theorem splitOnByte_append (sep : Nat) (a b : List Nat) (h : sep ∉ a) :
    splitOnByte sep (a ++ sep :: b) = a :: splitOnByte sep b := by
  induction a with
  | nil =>
      rw [List.nil_append, splitOnByte]
      rcases hr : splitOnByte sep b with _ | ⟨r, rs⟩
      · exact absurd hr (splitOnByte_ne_nil sep b)
      · simp
  | cons x a ih =>
      have hx : x ≠ sep := fun hxs => h (hxs ▸ List.mem_cons_self x a)
      have ha : sep ∉ a := fun hs => h (List.mem_cons_of_mem x hs)
      rw [List.cons_append, splitOnByte, ih ha]
      show (if x = sep then [] :: a :: splitOnByte sep b
        else (x :: a) :: splitOnByte sep b) = (x :: a) :: splitOnByte sep b
      rw [if_neg hx]

theorem hexDigitUpper_ne_10 (d : Nat) : hexDigitUpper d ≠ 10 := by
  unfold hexDigitUpper
  split <;> omega

theorem escape_path_no_newline : ∀ p : List Nat, 10 ∉ escape_path p := by
  intro p
  induction p with
  | nil => simp [escape_path]
  | cons c rest ih =>
      rw [escape_path]
      intro hmem
      rcases List.mem_append.mp hmem with hl | hr
      · by_cases hu : (is_unreserved c || c == 47) = true
        · rw [if_pos hu] at hl
          have hc : (10 : Nat) = c := List.mem_singleton.mp hl
          rw [← hc] at hu
          exact absurd hu (by decide)
        · rw [if_neg hu] at hl
          rcases List.mem_cons.mp hl with h37 | hhex
          · exact absurd h37 (by decide)
          · rw [hexUpper] at hhex
            rcases List.mem_cons.mp hhex with h1 | h2
            · exact hexDigitUpper_ne_10 _ h1.symm
            · rcases List.mem_cons.mp h2 with h3 | h4
              · exact hexDigitUpper_ne_10 _ h3.symm
              · simp at h4
      · exact ih hr

/-- C8: the sidecar content is a deterministic function of the escaped
canonical path and the timestamp — `trashinfo_file` is a function — and
for every path and every newline-free timestamp it consists of exactly
the three lines `[Trash Info]`, `Path=<escaped path>` and
`DeletionDate=<timestamp>`, each terminated by a newline; a short write
of the block makes `create_info_file` return the error -1. -/
theorem C8_sidecar_format :
    ∀ p ts : List Nat, 10 ∉ ts →
      splitOnByte 10 (trashinfo_file (escape_path p) ts) =
        [bytes ("[Trash Info]"), bytes ("Path=") ++ escape_path p,
          bytes ("DeletionDate=") ++ ts, []]
      ∧ create_info_file OpenRes.ok false = -1 := by
  intro p ts hts
  constructor
  · have e1 : bytes ("[Trash Info]\nPath=") =
        bytes ("[Trash Info]") ++ 10 :: bytes ("Path=") := by decide
    have e2 : bytes ("\nDeletionDate=") = 10 :: bytes ("DeletionDate=") := by
      decide
    have e3 : bytes ("\n") = [10] := by decide
    have h1 : (10 : Nat) ∉ bytes ("[Trash Info]") := by decide
    have h2 : (10 : Nat) ∉ bytes ("Path=") ++ escape_path p := by
      intro hmem
      rcases List.mem_append.mp hmem with ha | hb
      · exact absurd ha (by decide)
      · exact escape_path_no_newline p hb
    have h3 : (10 : Nat) ∉ bytes ("DeletionDate=") ++ ts := by
      intro hmem
      rcases List.mem_append.mp hmem with ha | hb
      · exact absurd ha (by decide)
      · exact hts hb
    have hshape : trashinfo_file (escape_path p) ts =
        bytes ("[Trash Info]") ++ 10 :: ((bytes ("Path=") ++ escape_path p) ++
          10 :: ((bytes ("DeletionDate=") ++ ts) ++ 10 :: ([] : List Nat))) := by
      rw [trashinfo_file, e1, e2, e3]
      simp only [List.append_assoc, List.cons_append, List.nil_append]
    rw [hshape, splitOnByte_append 10 _ _ h1, splitOnByte_append 10 _ _ h2,
      splitOnByte_append 10 _ _ h3]
    rfl
  · rfl

/-- C8 witness: the format theorem applied to the concrete canonical path
`/h/notes.txt` and the timestamp `2019-04-24T15:08:30`. -/
theorem C8_sidecar_format_witness :
    ((10 : Nat) ∉ bytes ("2019-04-24T15:08:30"))
    ∧ splitOnByte 10 (trashinfo_file (escape_path (bytes ("/h/notes.txt")))
        (bytes ("2019-04-24T15:08:30"))) =
      [bytes ("[Trash Info]"),
        bytes ("Path=") ++ escape_path (bytes ("/h/notes.txt")),
        bytes ("DeletionDate=") ++ bytes ("2019-04-24T15:08:30"), []]
    ∧ create_info_file OpenRes.ok false = -1 :=
  ⟨by decide,
    (C8_sidecar_format (bytes ("/h/notes.txt")) (bytes ("2019-04-24T15:08:30"))
      (by decide)).1,
    (C8_sidecar_format (bytes ("/h/notes.txt")) (bytes ("2019-04-24T15:08:30"))
      (by decide)).2⟩

/-- C5 witness: the round trip at the concrete canonical path
`/h/a b%c.txt`, whose escaped form is `/h/a%20b%25c.txt` (scenario 6 of
the specification). -/
theorem C5_escape_roundtrip_witness :
    (∀ b ∈ bytes ("/h/a b%c.txt"), b < 256)
    ∧ unescape (escape_path (bytes ("/h/a b%c.txt"))) =
        some (bytes ("/h/a b%c.txt"))
    ∧ escape_path (bytes ("/h/a b%c.txt")) = bytes ("/h/a%20b%25c.txt") :=
  ⟨by decide, C5_escape_roundtrip _ (by decide), by decide⟩

/-- C2: evaluation of the name allocator.  With a finite `name_max` of 255
and the counter at 0 the standard counter form is produced, but with
`pathconf` reporting no limit (return -1, `errno` 0) the standard form is
not used although the claim says the length check is merely skipped:
`chars_left` stays 0, the random branch runs with the wrapped requested
length `SIZE_MAX - 10`, which is odd, and the allocator fails. -/
theorem C2_no_limit_eval :
    generate_filenames (bytes ("/T/info")) (bytes ("/T/files"))
        ⟨bytes ("a"), bytes ("20190424150830"), 0, NameMaxRes.limit 255,
          false, []⟩ =
      some (bytes ("/T/info/a201904241508300.trashinfo"),
        bytes ("/T/files/a201904241508300"))
    ∧ generate_filenames (bytes ("/T/info")) (bytes ("/T/files"))
        ⟨bytes ("a"), bytes ("20190424150830"), 0, NameMaxRes.noLimit,
          false, []⟩ = none := by
  constructor
  · decide
  · decide

/-- C10: random-name generation rejects every odd requested length, and
when the random form is in force with a finite `name_max` whose value
minus `strlen(".trashinfo")` is odd, `generate_filenames` fails; the
retry loop surfaces a failed name allocation as the status
`LIBTRASHCAN_FILENAMES`. -/
theorem C10_odd_random_length :
    (∀ (random_bytes : List Nat) (filename_length : Nat),
      filename_length % 2 = 1 →
      generate_random_filename random_bytes filename_length = none)
    ∧ (∀ (trash_info_dir trash_files_dir : List Nat) (g : GenArgs) (n : Int),
      g.name_max = NameMaxRes.limit n → 10 ≤ n → n < 2 ^ 64 →
      (n.toNat - 10) % 2 = 1 → g.enforce_random = true →
      generate_filenames trash_info_dir trash_files_dir g = none)
    ∧ (∀ (env : Nat → Bool → AttemptEnv) (rename_ok cache_ok : Bool)
        (counter : Nat) (enforce_random : Bool),
      (env counter enforce_random).gen_ok = false →
      soft_delete_loop env rename_ok cache_ok counter enforce_random =
        ⟨LIBTRASHCAN_FILENAMES, false, false⟩) := by
  refine ⟨?_, ?_, ?_⟩
  · intro random_bytes filename_length hodd
    rw [generate_random_filename, if_pos (by omega)]
  · intro trash_info_dir trash_files_dir g n hnm hge hlt hodd henf
    have hflen : (size_t_of_long n + (size_t_modulus - trashinfo_ext_len)) %
        size_t_modulus = n.toNat - 10 := by
      have hval : (size_t_modulus : Int) = 2 ^ 64 := by
        rw [size_t_modulus]
        push_cast
      have hsz : size_t_of_long n = n.toNat := by
        rw [size_t_of_long, hval, Int.emod_eq_of_lt (by omega) (by omega)]
      rw [hsz, trashinfo_ext_len, size_t_modulus]
      omega
    have hodd2 : (n.toNat - 10) % 2 ≠ 0 := by omega
    obtain ⟨orig, tsn, cnt, nm, er, rb⟩ := g
    dsimp only at hnm henf
    subst hnm
    subst henf
    rw [generate_filenames]
    dsimp only
    simp only [Bool.not_true, Bool.and_false]
    rw [if_neg Bool.false_ne_true, random_name_pair]
    rw [hflen, generate_random_filename, if_pos hodd2]
    rfl
  · intro env rename_ok cache_ok counter enforce_random hgen
    rw [soft_delete_loop]
    simp [hgen]

/-- C10 witness: a concrete odd length (3) and a concrete allocator call
with `name_max = 15` (15 - 10 = 5 is odd) under the random form; a
concrete loop environment whose name generation fails. -/
theorem C10_odd_random_length_witness :
    generate_random_filename [] 3 = none
    ∧ generate_filenames [] []
        ⟨bytes ("a"), bytes ("20190424150830"), 0, NameMaxRes.limit 15,
          true, [1, 2, 3]⟩ = none
    ∧ soft_delete_loop (fun _ _ => ⟨false, OpenRes.ok, true⟩) true true 0 false =
        ⟨LIBTRASHCAN_FILENAMES, false, false⟩ := by
  refine ⟨C10_odd_random_length.1 [] 3 (by decide), ?_, ?_⟩
  · exact C10_odd_random_length.2.1 [] [] _ 15 rfl (by decide) (by decide)
      (by decide) rfl
  · exact C10_odd_random_length.2.2 _ true true 0 false rfl

theorem soft_delete_loop_cases (env : Nat → Bool → AttemptEnv)
    (rename_ok cache_ok : Bool) (counter : Nat) (enforce_random : Bool) :
    soft_delete_loop env rename_ok cache_ok counter enforce_random =
        ⟨LIBTRASHCAN_FILENAMES, false, false⟩
    ∨ soft_delete_loop env rename_ok cache_ok counter enforce_random =
        ⟨LIBTRASHCAN_SUCCESS, false, true⟩
    ∨ soft_delete_loop env rename_ok cache_ok counter enforce_random =
        ⟨LIBTRASHCAN_DIRCACHE, false, true⟩
    ∨ soft_delete_loop env rename_ok cache_ok counter enforce_random =
        ⟨LIBTRASHCAN_RENAME, false, false⟩
    ∨ soft_delete_loop env rename_ok cache_ok counter enforce_random =
        ⟨LIBTRASHCAN_COLLISION, false, false⟩
    ∨ soft_delete_loop env rename_ok cache_ok counter enforce_random =
        ⟨LIBTRASHCAN_TRASHINFO, true, false⟩
    ∨ soft_delete_loop env rename_ok cache_ok counter enforce_random =
        ⟨LIBTRASHCAN_TRASHINFO, false, false⟩ := by
  induction counter, enforce_random using soft_delete_loop.induct env rename_ok cache_ok with
  | case1 counter enforce_random a hg =>
      have hg2 : (env counter enforce_random).gen_ok = false := hg
      refine Or.inl ?_
      rw [soft_delete_loop]
      simp [hg2]
  | case2 counter enforce_random a hg hc0 hr hc =>
      have hg2 : ¬(env counter enforce_random).gen_ok = false := hg
      have hc02 : create_info_file (env counter enforce_random).openRes
          (env counter enforce_random).write_full = 0 := hc0
      refine Or.inr (Or.inl ?_)
      rw [soft_delete_loop]
      simp [hg2, hc02, hr, hc]
  | case3 counter enforce_random a hg hc0 hr hc =>
      have hg2 : ¬(env counter enforce_random).gen_ok = false := hg
      have hc02 : create_info_file (env counter enforce_random).openRes
          (env counter enforce_random).write_full = 0 := hc0
      refine Or.inr (Or.inr (Or.inl ?_))
      rw [soft_delete_loop]
      simp [hg2, hc02, hr, hc]
  | case4 counter enforce_random a hg hc0 hr =>
      have hg2 : ¬(env counter enforce_random).gen_ok = false := hg
      have hc02 : create_info_file (env counter enforce_random).openRes
          (env counter enforce_random).write_full = 0 := hc0
      refine Or.inr (Or.inr (Or.inr (Or.inl ?_)))
      rw [soft_delete_loop]
      simp [hg2, hc02, hr]
  | case5 counter a hg hc0 hc1 =>
      have hg2 : ¬(env counter true).gen_ok = false := hg
      have hc02 : ¬create_info_file (env counter true).openRes
          (env counter true).write_full = 0 := hc0
      have hc12 : create_info_file (env counter true).openRes
          (env counter true).write_full = 1 := hc1
      refine Or.inr (Or.inr (Or.inr (Or.inr (Or.inl ?_))))
      rw [soft_delete_loop]
      simp [hg2, hc02, hc12]
  | case6 counter enforce_random a hg hc0 hc1 henf ih =>
      have henf2 : enforce_random = false := by
        rcases enforce_random with _ | _
        · rfl
        · exact absurd rfl henf
      subst henf2
      have hg2 : ¬(env counter false).gen_ok = false := hg
      have hc12 : create_info_file (env counter false).openRes
          (env counter false).write_full = 1 := hc1
      have hstep : soft_delete_loop env rename_ok cache_ok counter false =
          soft_delete_loop env rename_ok cache_ok ((counter + 1) % uint_modulus)
            (((counter + 1) % uint_modulus) == 0) := by
        rw [soft_delete_loop]
        simp [hg2, hc12]
      rw [hstep]
      exact ih
  | case7 counter enforce_random a hg hc0 hc1 =>
      have hg2 : ¬(env counter enforce_random).gen_ok = false := hg
      have hc02 : ¬create_info_file (env counter enforce_random).openRes
          (env counter enforce_random).write_full = 0 := hc0
      have hc12 : ¬create_info_file (env counter enforce_random).openRes
          (env counter enforce_random).write_full = 1 := hc1
      rcases hopen : (env counter enforce_random).openRes with _ | _ | _
      · rcases hw : (env counter enforce_random).write_full with _ | _
        · refine Or.inr (Or.inr (Or.inr (Or.inr (Or.inr (Or.inl ?_)))))
          rw [soft_delete_loop]
          simp [hg2, hopen, hw, create_info_file, info_file_created]
        · rw [hopen, hw] at hc02
          simp [create_info_file] at hc02
      · rw [hopen] at hc12
        simp [create_info_file] at hc12
      · refine Or.inr (Or.inr (Or.inr (Or.inr (Or.inr (Or.inr ?_)))))
        rw [soft_delete_loop]
        simp [hg2, hopen, create_info_file, info_file_created]

/-- C3 counterexample: at a concrete environment where the exclusive open
of the sidecar succeeds but the `fwrite` is short, the operation returns
the error `LIBTRASHCAN_TRASHINFO` while the partially-written sidecar
remains on disk unpaired — so an error return can leave an orphan
sidecar, contradicting the claim as stated. -/
theorem C3_counterexample :
    (soft_delete_loop (fun _ _ => ⟨true, OpenRes.ok, false⟩) true true 0
        false).status ≠ LIBTRASHCAN_SUCCESS
    ∧ (soft_delete_loop (fun _ _ => ⟨true, OpenRes.ok, false⟩) true true 0
        false).orphan_sidecar = true := by
  have h : soft_delete_loop (fun _ _ => ⟨true, OpenRes.ok, false⟩) true true 0
      false = ⟨LIBTRASHCAN_TRASHINFO, true, false⟩ := by
    rw [soft_delete_loop]
    decide
  rw [h]
  decide

/-- C3 (amended): whenever the loop returns the rename error the sidecar
has been removed and the entry was not moved, and the only error return
that can leave an unpaired sidecar behind is the sidecar-failure status
`LIBTRASHCAN_TRASHINFO` (a short write after a successful exclusive
open). -/
theorem C3_orphan_sidecar :
    ∀ (env : Nat → Bool → AttemptEnv) (rename_ok cache_ok : Bool)
      (counter : Nat) (enforce_random : Bool),
      ((soft_delete_loop env rename_ok cache_ok counter enforce_random).status =
          LIBTRASHCAN_RENAME →
        (soft_delete_loop env rename_ok cache_ok counter
            enforce_random).orphan_sidecar = false
        ∧ (soft_delete_loop env rename_ok cache_ok counter
            enforce_random).entry_in_trash = false)
      ∧ ((soft_delete_loop env rename_ok cache_ok counter
            enforce_random).orphan_sidecar = true →
        (soft_delete_loop env rename_ok cache_ok counter
            enforce_random).status = LIBTRASHCAN_TRASHINFO) := by
  intro env rename_ok cache_ok counter enforce_random
  rcases soft_delete_loop_cases env rename_ok cache_ok counter enforce_random with
    h | h | h | h | h | h | h <;> rw [h] <;> decide

/-- C3 witness: the amended theorem applied to a concrete environment in
which the rename fails; the rename error is returned with no sidecar
left and the entry not in the trash. -/
theorem C3_orphan_sidecar_witness :
    (soft_delete_loop (fun _ _ => ⟨true, OpenRes.ok, true⟩) false true 0
        false).status = LIBTRASHCAN_RENAME
    ∧ (soft_delete_loop (fun _ _ => ⟨true, OpenRes.ok, true⟩) false true 0
        false).orphan_sidecar = false
    ∧ (soft_delete_loop (fun _ _ => ⟨true, OpenRes.ok, true⟩) false true 0
        false).entry_in_trash = false := by
  have hs : soft_delete_loop (fun _ _ => ⟨true, OpenRes.ok, true⟩) false true 0
      false = ⟨LIBTRASHCAN_RENAME, false, false⟩ := by
    rw [soft_delete_loop]
    decide
  have happ := (C3_orphan_sidecar (fun _ _ => ⟨true, OpenRes.ok, true⟩) false
    true 0 false).1 (by rw [hs])
  exact ⟨by rw [hs], happ.1, happ.2⟩

/-- C9: whenever the loop returns the size-cache error
`LIBTRASHCAN_DIRCACHE`, the rename into `files_dir` has already succeeded
and is not undone — the entry and its sidecar remain in the trash. -/
theorem C9_size_cache_frame :
    ∀ (env : Nat → Bool → AttemptEnv) (rename_ok cache_ok : Bool)
      (counter : Nat) (enforce_random : Bool),
      (soft_delete_loop env rename_ok cache_ok counter enforce_random).status =
        LIBTRASHCAN_DIRCACHE →
      (soft_delete_loop env rename_ok cache_ok counter
          enforce_random).entry_in_trash = true
      ∧ (soft_delete_loop env rename_ok cache_ok counter
          enforce_random).orphan_sidecar = false := by
  intro env rename_ok cache_ok counter enforce_random
  rcases soft_delete_loop_cases env rename_ok cache_ok counter enforce_random with
    h | h | h | h | h | h | h <;> rw [h] <;> decide

/-- C9 witness: a concrete run in which the sidecar is written, the
rename succeeds and the cache refresh fails: the status is the
size-cache error and the entry is in the trash. -/
theorem C9_size_cache_frame_witness :
    (soft_delete_loop (fun _ _ => ⟨true, OpenRes.ok, true⟩) true false 0
        false).status = LIBTRASHCAN_DIRCACHE
    ∧ (soft_delete_loop (fun _ _ => ⟨true, OpenRes.ok, true⟩) true false 0
        false).entry_in_trash = true
    ∧ (soft_delete_loop (fun _ _ => ⟨true, OpenRes.ok, true⟩) true false 0
        false).orphan_sidecar = false := by
  have hs : soft_delete_loop (fun _ _ => ⟨true, OpenRes.ok, true⟩) true false 0
      false = ⟨LIBTRASHCAN_DIRCACHE, false, true⟩ := by
    rw [soft_delete_loop]
    decide
  have happ := C9_size_cache_frame (fun _ _ => ⟨true, OpenRes.ok, true⟩) true
    false 0 false (by rw [hs])
  exact ⟨by rw [hs], happ.1, happ.2⟩

/-- C6: the sidecar writer reports an existing target distinctly (1)
from every other failure (-1); on a collision the loop retries with the
counter incremented, switches to the random form exactly when the
counter wraps to 0, gives up with `LIBTRASHCAN_COLLISION` when the
random form also collides, and returns `LIBTRASHCAN_TRASHINFO` without
retry on every other sidecar failure. -/
theorem C6_collision_protocol :
    (∀ w, create_info_file OpenRes.eexist w = 1)
    ∧ (∀ w, create_info_file OpenRes.otherErr w = -1)
    ∧ (∀ (env : Nat → Bool → AttemptEnv) (rename_ok cache_ok : Bool)
        (counter : Nat),
      (env counter false).gen_ok = true →
      (env counter false).openRes = OpenRes.eexist →
      counter + 1 < uint_modulus →
      soft_delete_loop env rename_ok cache_ok counter false =
        soft_delete_loop env rename_ok cache_ok (counter + 1) false)
    ∧ (∀ (env : Nat → Bool → AttemptEnv) (rename_ok cache_ok : Bool),
      (env (uint_modulus - 1) false).gen_ok = true →
      (env (uint_modulus - 1) false).openRes = OpenRes.eexist →
      soft_delete_loop env rename_ok cache_ok (uint_modulus - 1) false =
        soft_delete_loop env rename_ok cache_ok 0 true)
    ∧ (∀ (env : Nat → Bool → AttemptEnv) (rename_ok cache_ok : Bool)
        (counter : Nat),
      (env counter true).gen_ok = true →
      (env counter true).openRes = OpenRes.eexist →
      soft_delete_loop env rename_ok cache_ok counter true =
        ⟨LIBTRASHCAN_COLLISION, false, false⟩)
    ∧ (∀ (env : Nat → Bool → AttemptEnv) (rename_ok cache_ok : Bool)
        (counter : Nat) (enforce_random : Bool),
      (env counter enforce_random).gen_ok = true →
      (env counter enforce_random).openRes = OpenRes.otherErr →
      soft_delete_loop env rename_ok cache_ok counter enforce_random =
        ⟨LIBTRASHCAN_TRASHINFO, false, false⟩) := by
  refine ⟨fun w => rfl, fun w => rfl, ?_, ?_, ?_, ?_⟩
  · intro env rename_ok cache_ok counter hgen hopen hlt
    have hg2 : ¬(env counter false).gen_ok = false := by simp [hgen]
    rw [soft_delete_loop]
    simp only [hg2, hopen, create_info_file]
    have hmod : (counter + 1) % uint_modulus = counter + 1 :=
      Nat.mod_eq_of_lt hlt
    have hbeq : ((counter + 1) == 0) = false := by simp
    simp [hmod, hbeq]
  · intro env rename_ok cache_ok hgen hopen
    have hg2 : ¬(env (uint_modulus - 1) false).gen_ok = false := by simp [hgen]
    rw [soft_delete_loop]
    simp only [hg2, hopen, create_info_file]
    have h0 : (uint_modulus - 1 + 1) % uint_modulus = 0 := by
      norm_num [uint_modulus]
    simp [h0]
  · intro env rename_ok cache_ok counter hgen hopen
    have hg2 : ¬(env counter true).gen_ok = false := by simp [hgen]
    rw [soft_delete_loop]
    simp [hg2, hopen, create_info_file]
  · intro env rename_ok cache_ok counter enforce_random hgen hopen
    have hg2 : ¬(env counter enforce_random).gen_ok = false := by simp [hgen]
    rw [soft_delete_loop]
    simp [hg2, hopen, create_info_file, info_file_created]

/-- C6 witness: with a concrete environment in which every sidecar open
collides, one wrap step from the largest counter switches to the random
form, and the collision under the random form returns
`LIBTRASHCAN_COLLISION`; the two `create_info_file` evaluations show the
distinct result values. -/
theorem C6_collision_protocol_witness :
    create_info_file OpenRes.eexist false = 1
    ∧ create_info_file OpenRes.otherErr false = -1
    ∧ soft_delete_loop (fun _ _ => ⟨true, OpenRes.eexist, true⟩) true true
        (uint_modulus - 1) false =
      soft_delete_loop (fun _ _ => ⟨true, OpenRes.eexist, true⟩) true true 0 true
    ∧ soft_delete_loop (fun _ _ => ⟨true, OpenRes.eexist, true⟩) true true 0 true =
      ⟨LIBTRASHCAN_COLLISION, false, false⟩ := by
  refine ⟨C6_collision_protocol.1 false, C6_collision_protocol.2.1 false, ?_, ?_⟩
  · exact C6_collision_protocol.2.2.2.1 (fun _ _ => ⟨true, OpenRes.eexist, true⟩)
      true true rfl rfl
  · exact C6_collision_protocol.2.2.2.2.1 (fun _ _ => ⟨true, OpenRes.eexist, true⟩)
      true true 0 rfl rfl

mutual

theorem get_dir_size_sum : ∀ (es : List FsNode) (acc : Nat),
    acc < size_t_modulus →
    get_dir_size es acc = (acc + (reg_file_sizes_list es).sum) % size_t_modulus
  | [], acc, h => by
      rw [get_dir_size, reg_file_sizes_list]
      simp [Nat.mod_eq_of_lt h]
  | e :: rest, acc, h => by
      rw [get_dir_size, reg_file_sizes_list]
      have h1 := dir_entry_size_sum e acc h
      have hm : 0 < size_t_modulus := by norm_num [size_t_modulus]
      have h2 : dir_entry_size e acc < size_t_modulus := by
        rw [h1]
        exact Nat.mod_lt _ hm
      rw [get_dir_size_sum rest (dir_entry_size e acc) h2, h1, Nat.mod_add_mod,
        List.sum_append, Nat.add_assoc]

theorem dir_entry_size_sum : ∀ (e : FsNode) (acc : Nat),
    acc < size_t_modulus →
    dir_entry_size e acc = (acc + (reg_file_sizes e).sum) % size_t_modulus
  | FsNode.file sz, acc, h => by
      rw [dir_entry_size, reg_file_sizes]
      simp
  | FsNode.symlink, acc, h => by
      rw [dir_entry_size, reg_file_sizes]
      simp [Nat.mod_eq_of_lt h]
  | FsNode.special, acc, h => by
      rw [dir_entry_size, reg_file_sizes]
      simp [Nat.mod_eq_of_lt h]
  | FsNode.dir es, acc, h => by
      rw [dir_entry_size, reg_file_sizes]
      exact get_dir_size_sum es acc h

end

/-- C7: the rows emitted for `directorysizes` are exactly, in listing
order, one row per immediate directory-typed child of `files_dir` whose
paired sidecar exists, carrying the sidecar mtime and a size equal to
the sum of the `st_size` of every regular file reachable in the subtree
(as a 64-bit value; symbolic links and other kinds contribute 0), while
children without a sidecar are skipped silently with no row. -/
theorem C7_dir_size_cache_rows :
    ∀ (children : List (String × FsNode)) (info_mtime : String → Option Int),
      create_or_update_dir_size_cache children info_mtime =
        children.filterMap (row_per_spec info_mtime) := by
  intro children info_mtime
  induction children with
  | nil => rfl
  | cons child rest ih =>
      rcases child with ⟨name, node⟩
      rcases node with sz | _ | _ | es
      · rw [create_or_update_dir_size_cache, List.filterMap_cons]
        case x_1 => exact fun es h => FsNode.noConfusion h
        simp only [row_per_spec]
        exact ih
      · rw [create_or_update_dir_size_cache, List.filterMap_cons]
        case x_1 => exact fun es h => FsNode.noConfusion h
        simp only [row_per_spec]
        exact ih
      · rw [create_or_update_dir_size_cache, List.filterMap_cons]
        case x_1 => exact fun es h => FsNode.noConfusion h
        simp only [row_per_spec]
        exact ih
      · rw [create_or_update_dir_size_cache, List.filterMap_cons]
        rcases hm : info_mtime name with _ | m <;>
          simp [row_per_spec, hm, ih,
            get_dir_size_sum es 0 (by norm_num [size_t_modulus])]
